import Mathlib

/-!
Shallow embedding of `lib/ansible/plugins/connections/winrm.py` (the WinRM
connection plugin: transport negotiation, shell session with per-command
cleanup, chunked upload and download), together with theorems checking the
natural-language specification against it.

Modelling conventions:
* Python strings are modelled as Lean `String` / `List Char`; all the strings
  the code inspects are ASCII, so `Char.toLower` coincides with `str.lower`.
* The two regular expressions used by `_winrm_connect`
  (`Operation\s+?timed\s+?out` with `re.I`, and `Code\s+?(\d{3})`) are
  implemented directly over `List Char`; since the whitespace class is
  disjoint from the literal/digit classes, the lazy quantifiers reduce to
  "skip the whitespace run, then match".
* Remote behaviour (probe outcomes, shell/command handles, chunk execution
  results) is supplied by explicit oracles, and the functions additionally
  return the list of remote events/commands they caused, so that claims about
  "what was issued remotely" are statements about that list.
* Handle tokens (shell ids, command ids) are non-empty strings in WinRM, so
  Python truthiness tests on them (`if not self.shell_id`, `if command_id`)
  are modelled as `Option.isSome` tests.
-/

namespace WinRM

/-! ### Python character classes and the two regular expressions -/

/-- Python 2 `\s` on `str`: the six ASCII whitespace characters. -/
def pyWS (c : Char) : Bool :=
  c = ' ' || c = '\t' || c = '\n' || c = '\r' || c = '\x0b' || c = '\x0c'

/-- Match a literal pattern (given lower-case) case-insensitively at the head;
return the rest of the input on success. -/
def matchLitCI : List Char → List Char → Option (List Char)
  | [], cs => some cs
  | _ :: _, [] => none
  | p :: ps, c :: cs => if c.toLower = p then matchLitCI ps cs else none

/-- Match a literal pattern case-sensitively at the head. -/
def matchLit : List Char → List Char → Option (List Char)
  | [], cs => some cs
  | _ :: _, [] => none
  | p :: ps, c :: cs => if c = p then matchLit ps cs else none

/-- Split off the leading run of Python whitespace, returning its length. -/
def spanWS : List Char → Nat × List Char
  | [] => (0, [])
  | c :: cs =>
    if pyWS c then
      let r := spanWS cs
      (r.1 + 1, r.2)
    else (0, c :: cs)

/-- `re` pattern `Operation\s+?timed\s+?out` (flag `re.I`) anchored at the
head of the input. -/
def timeoutAt (cs : List Char) : Bool :=
  match matchLitCI "operation".toList cs with
  | none => false
  | some r1 =>
    let s1 := spanWS r1
    if s1.1 = 0 then false
    else
      match matchLitCI "timed".toList s1.2 with
      | none => false
      | some r2 =>
        let s2 := spanWS r2
        if s2.1 = 0 then false
        else (matchLitCI "out".toList s2.2).isSome

/-- `re.search` driver for a boolean head-matcher: try every suffix. -/
def searchBool (p : List Char → Bool) : List Char → Bool
  | [] => p []
  | c :: cs => p (c :: cs) || searchBool p cs

/-- `re.search(r'Operation\s+?timed\s+?out', err_msg, re.I)` as a boolean. -/
def matchesTimeout (s : String) : Bool :=
  searchBool timeoutAt s.toList

/-- Numeric value of an ASCII digit. -/
def digitVal (c : Char) : Nat := c.toNat - 48

/-- `re` pattern `Code\s+?(\d{3})` anchored at the head of the input,
returning the captured three-digit number. -/
def codeAt (cs : List Char) : Option Nat :=
  match matchLit "Code".toList cs with
  | none => none
  | some r1 =>
    let s1 := spanWS r1
    if s1.1 = 0 then none
    else
      match s1.2 with
      | a :: b :: c :: _ =>
        if a.isDigit && b.isDigit && c.isDigit then
          some (digitVal a * 100 + digitVal b * 10 + digitVal c)
        else none
      | _ => none

/-- `re.search` driver for an optional-result head-matcher: first match wins. -/
def searchOpt (f : List Char → Option Nat) : List Char → Option Nat
  | [] => f []
  | c :: cs =>
    match f (c :: cs) with
    | some v => some v
    | none => searchOpt f cs

/-- `re.search(r'Code\s+?(\d{3})', err_msg)`, as the captured code. -/
def findCode (s : String) : Option Nat :=
  searchOpt codeAt s.toList

/-! ### Data model for the transport negotiator (`Connection._winrm_connect`) -/

/-- The auth mechanisms appearing in `Connection.transport_schemes`. -/
inductive Transport
  | kerberos
  | plaintext
  deriving DecidableEq, Repr

/-- The URL schemes appearing in `Connection.transport_schemes`. -/
inductive Scheme
  | http
  | https
  deriving DecidableEq, Repr

/-- `transport_schemes['http']`. -/
def transport_schemes_http : List (Transport × Scheme) :=
  [(Transport.kerberos, Scheme.http), (Transport.plaintext, Scheme.http),
   (Transport.plaintext, Scheme.https)]

/-- `transport_schemes['https']`. -/
def transport_schemes_https : List (Transport × Scheme) :=
  [(Transport.kerberos, Scheme.https), (Transport.plaintext, Scheme.https)]

/-- The fields of `self._connection_info` that `_winrm_connect` reads. -/
structure ConnectionInfo where
  port : Option Nat
  remote_addr : String
  remote_user : String
  password : String
  deriving DecidableEq, Repr

/-- `self._connection_info.port or 5986` (Python `or`: `None` and `0` both
fall back to 5986). -/
def effPort (ci : ConnectionInfo) : Nat :=
  match ci.port with
  | none => 5986
  | some 0 => 5986
  | some p => p

/-- `'@' in self._connection_info.remote_user`. -/
def hasAt (s : String) : Bool :=
  s.toList.contains '@'

/-- `str.strip()` restricted to ASCII whitespace. -/
def pyStrip (cs : List Char) : List Char :=
  ((cs.dropWhile pyWS).reverse.dropWhile pyWS).reverse

/-- `remote_user.split('@', 1)[1].strip() or None` (only evaluated on users
that do contain `'@'`). -/
def realmOf (user : String) : Option String :=
  let after := (user.toList.dropWhile (fun c => c != '@')).drop 1
  let stripped := pyStrip after
  if stripped.isEmpty then none else some (String.mk stripped)

def schemeStr : Scheme → String
  | Scheme.http => "http"
  | Scheme.https => "https"

/-- `parse.urlunsplit((scheme, netloc, '/wsman', '', ''))` with
`netloc = '%s:%d' % (remote_addr, port)`. -/
def endpointOf (ci : ConnectionInfo) (s : Scheme) : String :=
  schemeStr s ++ "://" ++ ci.remote_addr ++ ":" ++ toString (effPort ci) ++ "/wsman"

/-- The `Protocol(...)` constructor call: the data of one connection handle. -/
structure Protocol where
  endpoint : String
  transport : Transport
  username : String
  password : String
  realm : Option String
  deriving DecidableEq, Repr

/-- The `Protocol` object built for one attempt (realm is derived only for
kerberos attempts, as in lines 92-95 of the source). -/
def mkProtocol (ci : ConnectionInfo) (t : Transport) (s : Scheme) : Protocol :=
  { endpoint := endpointOf ci s
    transport := t
    username := ci.remote_user
    password := ci.password
    realm := if t = Transport.kerberos then realmOf ci.remote_user else none }

/-- Outcome of `protocol.send_message('')` for one attempt: success, or a
`WinRMTransportError` carrying a message. -/
inductive ProbeResult
  | ok
  | err (msg : String)
  deriving DecidableEq, Repr

/-- Remote-interaction trace entries of the negotiation loop. -/
inductive NegEvent
  | probed (t : Transport) (s : Scheme)
  | contErr (msg : String)
  deriving DecidableEq, Repr

/-- How `_winrm_connect` can exit. `noResult` is the implicit `return None`
reached when the loop finishes with `exc` still `None`. -/
inductive NegOutcome
  | connected (p : Protocol)
  | timeoutErr
  | authErr
  | lastErr (msg : String)
  | noResult
  deriving DecidableEq, Repr

/-- The skip guard: `transport == 'kerberos' and (not HAVE_KERBEROS or
not '@' in remote_user)`. -/
def skipA (hk : Bool) (ci : ConnectionInfo) (a : Transport × Scheme) : Bool :=
  (a.1 = Transport.kerberos) && (!hk || !hasAt ci.remote_user)

/-- The `for transport, scheme in ...` loop of `_winrm_connect`, carrying the
`exc` variable and emitting the trace of probes and continue-classified
errors.  The classification mirrors lines 111-123 of the source: timeout
pattern first, then the embedded three-digit code (401 fatal, 411 treated
as success), anything else logs and continues. -/
def connectLoop (hk : Bool) (ci : ConnectionInfo)
    (probe : Transport → Scheme → ProbeResult) :
    List (Transport × Scheme) → Option String → NegOutcome × List NegEvent
  | [], exc =>
    match exc with
    | some e => (NegOutcome.lastErr e, [])
    | none => (NegOutcome.noResult, [])
  | a :: rest, exc =>
    if skipA hk ci a then connectLoop hk ci probe rest exc
    else
      match probe a.1 a.2 with
      | ProbeResult.ok =>
        (NegOutcome.connected (mkProtocol ci a.1 a.2), [NegEvent.probed a.1 a.2])
      | ProbeResult.err msg =>
        if matchesTimeout msg then (NegOutcome.timeoutErr, [NegEvent.probed a.1 a.2])
        else
          match findCode msg with
          | some code =>
            if code = 401 then (NegOutcome.authErr, [NegEvent.probed a.1 a.2])
            else if code = 411 then
              (NegOutcome.connected (mkProtocol ci a.1 a.2), [NegEvent.probed a.1 a.2])
            else
              let r := connectLoop hk ci probe rest (some msg)
              (r.1, NegEvent.probed a.1 a.2 :: NegEvent.contErr msg :: r.2)
          | none =>
            let r := connectLoop hk ci probe rest (some msg)
            (r.1, NegEvent.probed a.1 a.2 :: NegEvent.contErr msg :: r.2)

/-- `Connection._winrm_connect`: pick the attempt list by port, start with
`exc = None`. -/
def winrm_connect (hk : Bool) (ci : ConnectionInfo)
    (probe : Transport → Scheme → ProbeResult) : NegOutcome × List NegEvent :=
  connectLoop hk ci probe
    (if effPort ci = 5985 then transport_schemes_http else transport_schemes_https) none

/-- The continue-classified error messages recorded in a trace, in order. -/
def contErrs (evs : List NegEvent) : List String :=
  evs.filterMap fun e =>
    match e with
    | NegEvent.contErr m => some m
    | _ => none

-- sanity checks on the regex embedding
example : matchesTimeout "Operation timed out" = true := by decide
example : matchesTimeout "operation  TIMED   out after 30s" = true := by decide
example : matchesTimeout "connection refused" = false := by decide
example : findCode "some error Code 401 returned" = some 401 := by decide
example : findCode "Code 4110" = some 411 := by decide
example : findCode "Code401" = none := by decide
example : findCode "code 401" = none := by decide

/-! ### Chunk-size arithmetic (`Connection.put_file`, lines 196-202)

The file has `from __future__ import division`, so both `/` in
`int(((8190 - len(cmd)) / 2.67) / 1.35)` are true division on IEEE binary64
doubles, and `int` truncates the final double toward zero.  We model the
doubles bit-faithfully as mantissa/exponent pairs `⟨m, e⟩` denoting
`m * 2 ^ e`: the literals `2.67` and `1.35` are the binary64 values nearest
those decimals (CPython parses literals correctly rounded), the integer
`8190 - len(cmd)` converts to a double exactly (its magnitude is at most
8190 < 2 ^ 53), each division is the exact quotient correctly rounded to 53
significant bits with ties to even (IEEE 754 round-to-nearest-even, the
default mode), and every intermediate value stays far inside the normal
range, so overflow and subnormals cannot occur.  All arithmetic is on `Nat`
and `Int`, so concrete values evaluate by `decide`. -/

/-- One probe of the binary bit-length search: halve the remaining width. -/
def bStep (k : Nat) (p : Nat × Nat) : Nat × Nat :=
  if p.1 >>> k = 0 then p else (p.1 >>> k, p.2 + k)

/-- Number of binary digits of `n` (valid for `n < 2 ^ 128`, far above every
value arising here). -/
def bits (n : Nat) : Nat :=
  let p := bStep 64 (n, 0)
  let p := bStep 32 p
  let p := bStep 16 p
  let p := bStep 8 p
  let p := bStep 4 p
  let p := bStep 2 p
  let p := bStep 1 p
  if p.1 = 0 then 0 else p.2 + 1

/-- Is `n / d < 2 ^ fl0`?  (Comparison of a positive rational against a
power of two, in integers.) -/
def qLt (n d : Nat) (fl0 : Int) : Bool :=
  if 0 ≤ fl0 then n < d * 2 ^ fl0.toNat else n * 2 ^ (-fl0).toNat < d

/-- Round the positive rational `n / d` to 53 significant bits, round to
nearest with ties to even: the result `⟨m, e⟩` denotes `m * 2 ^ e`, the
binary64 value nearest `n / d`.  `fl` is `⌊log2 (n / d)⌋`, pinned down from
the bit lengths by one comparison; the mantissa `m` is the rounding of
`(n / d) * 2 ^ (-e)`, which lies in `[2^52, 2^53)`. -/
def roundMant (n d : Nat) : Nat × Int :=
  if n = 0 || d = 0 then (0, 0)
  else
    let fl0 : Int := (bits n : Int) - (bits d : Int)
    let fl : Int := if qLt n d fl0 then fl0 - 1 else fl0
    let e : Int := fl - 52
    let T := if e ≤ 0 then n * 2 ^ (-e).toNat else n
    let B := if e ≤ 0 then d else d * 2 ^ e.toNat
    let q := T / B
    let r := T % B
    let m := if 2 * r < B then q
             else if B < 2 * r then q + 1
             else if q % 2 = 0 then q else q + 1
    (m, e)

/-- IEEE binary64 division of nonnegative doubles `x / y`: the exact
quotient `(x.1 / y.1) * 2 ^ (x.2 - y.2)` correctly rounded — the mantissa
quotient is rounded to 53 bits and the exponent shift is exact. -/
def fdivRep (x y : Nat × Int) : Nat × Int :=
  let me := roundMant x.1 y.1
  (me.1, me.2 + x.2 - y.2)

/-- The binary64 double nearest the literal `2.67`. -/
def d267 : Nat × Int := roundMant 267 100

/-- The binary64 double nearest the literal `1.35`. -/
def d135 : Nat × Int := roundMant 135 100

/-- Python `int()` on the nonnegative double `⟨m, e⟩` (truncation toward 0,
which on a nonnegative value is the floor of its exact value). -/
def truncPair (x : Nat × Int) : Nat :=
  if 0 ≤ x.2 then x.1 * 2 ^ x.2.toNat else x.1 / 2 ^ (-x.2).toNat

/-- `buffer_size = int(((8190 - len(cmd)) / 2.67) / 1.35)` where
`overheadLen = len(cmd)` is the measured length of the encoded empty-data
script (produced by the external shell encoder, taken as a parameter),
computed in IEEE binary64 exactly as CPython does: the sign is carried
separately (binary64 is sign-magnitude and round-to-nearest-even is
symmetric under negation, and `int()` truncates toward zero). -/
def buffer_size (overheadLen : Nat) : ℤ :=
  let K : ℤ := 8190 - (overheadLen : ℤ)
  let q1 := fdivRep (K.natAbs, 0) d267
  let q2 := fdivRep q1 d135
  let mag : ℤ := (truncPair q2 : ℤ)
  if 0 ≤ K then mag else -mag

/-- The spec-side formula (from the spec text, for comparison with
`buffer_size`): `floor(floor((8190 - overheadLength) / 2.67) / 1.35)`,
with the inner quotient floored before the second division, over exact
rationals. -/
def specMaxChunk (overheadLen : Nat) : ℤ :=
  ⌊((⌊(8190 - (overheadLen : ℚ)) / (267 / 100)⌋ : ℚ)) / (135 / 100)⌋

/-- The exact-rational single-truncation value
`⌊((8190 - overheadLen) / 2.67) / 1.35⌋ = ⌊(8190 - overheadLen) * 2000 / 7209⌋`
(for `overheadLen ≤ 8190`), for comparison with the float pipeline. -/
def singleTrunc (overheadLen : Nat) : ℤ :=
  (((8190 - overheadLen) * 2000 / 7209 : Nat) : ℤ)

/-- Does the float pipeline agree at `L` with its exact characterization
(the single-truncation value, except the one double-rounding deviation at
`L = 981`)? -/
def chunkAgrees (L : Nat) : Bool :=
  buffer_size L == (if L = 981 then (1999 : ℤ) else singleTrunc L)

/-- Balanced-recursion check of `chunkAgrees` on the range `[lo, lo + w)`
(the balanced shape keeps the evaluation depth logarithmic). -/
def checkAux : Nat → Nat → Nat → Bool
  | 0, lo, w => w == 0 || (w == 1 && chunkAgrees lo)
  | fuel + 1, lo, w =>
    if w ≤ 1 then w == 0 || (w == 1 && chunkAgrees lo)
    else checkAux fuel lo (w / 2) && checkAux fuel (lo + w / 2) (w - w / 2)

/-! ### Shell session (`_winrm_exec`, `close`) -/

/-- The tuple wrapped by `Response(...)`: status code and output streams. -/
structure CmdOutput where
  status_code : Int
  std_out : String
  std_err : String
  deriving DecidableEq, Repr

/-- Per-execution remote behaviour: what `open_shell`, `run_command` and
`get_command_output` would return, or the message of the exception they
would raise. -/
structure ExecOracle where
  open_shell : Except String String
  run_command : Except String String
  get_output : Except String CmdOutput
  deriving Repr

/-- Remote resource events caused by the session. -/
inductive ExecEvent
  | openedShell (sid : String)
  | ranCommand (cid : String)
  | cleanedCommand (sid : String) (cid : String)
  | closedShell (sid : String)
  deriving DecidableEq, Repr

/-- The two lazily-created handles held by a `Connection` object. -/
structure SessionState where
  protocol : Option Protocol
  shell_id : Option String
  deriving DecidableEq, Repr

/-- Does the event trace contain a release of command handle `cid`? -/
def releasesCommand (evs : List ExecEvent) (cid : String) : Bool :=
  evs.any fun e =>
    match e with
    | ExecEvent.cleanedCommand _ c => c == cid
    | _ => false

/-- The `try ... finally` body of `_winrm_exec` (lines 136-149): run the
command, fetch its output, and release the command handle in the `finally`
block whenever `command_id` was assigned. -/
def runPhase (orc : ExecOracle) (sid : String) (st : SessionState) :
    Except String CmdOutput × SessionState × List ExecEvent :=
  match orc.run_command with
  | Except.error e => (Except.error e, st, [])
  | Except.ok cid =>
    match orc.get_output with
    | Except.error e =>
      (Except.error e, st, [ExecEvent.ranCommand cid, ExecEvent.cleanedCommand sid cid])
    | Except.ok out =>
      (Except.ok out, st, [ExecEvent.ranCommand cid, ExecEvent.cleanedCommand sid cid])

/-- `_winrm_exec` once a protocol is present:
`if not self.shell_id: self.shell_id = self.protocol.open_shell()`, then the
command phase. -/
def execWithProto (orc : ExecOracle) (st : SessionState) :
    Except String CmdOutput × SessionState × List ExecEvent :=
  match st.shell_id with
  | some sid => runPhase orc sid st
  | none =>
    match orc.open_shell with
    | Except.error e => (Except.error e, st, [])
    | Except.ok sid =>
      let st2 : SessionState := { st with shell_id := some sid }
      let r := runPhase orc sid st2
      (r.1, r.2.1, ExecEvent.openedShell sid :: r.2.2)

/-- `Connection._winrm_exec` (the `command`/`args` arguments are forwarded to
`run_command` and do not influence the session bookkeeping modelled here):
`if not self.protocol: self.protocol = self._winrm_connect()`, then shell and
command phases.  A negotiation error propagates before any handle is touched;
the impossible `None` return of `_winrm_connect` would crash on attribute
access. -/
def winrm_exec (hk : Bool) (ci : ConnectionInfo)
    (probe : Transport → Scheme → ProbeResult) (orc : ExecOracle)
    (st : SessionState) (_command : String) (_args : List String) :
    Except String CmdOutput × SessionState × List ExecEvent :=
  match st.protocol with
  | some _ => execWithProto orc st
  | none =>
    match (winrm_connect hk ci probe).1 with
    | NegOutcome.connected p => execWithProto orc { st with protocol := some p }
    | NegOutcome.timeoutErr =>
      (Except.error "the connection attempt timed out", st, [])
    | NegOutcome.authErr =>
      (Except.error "the username/password specified for this server was incorrect", st, [])
    | NegOutcome.lastErr e => (Except.error e, st, [])
    | NegOutcome.noResult => (Except.error "AttributeError: NoneType", st, [])

/-- `Connection.close` (lines 282-285): release the shell handle and clear it
when both handles are present, otherwise do nothing. -/
def connection_close (st : SessionState) : SessionState × List ExecEvent :=
  match st.protocol, st.shell_id with
  | some _, some sid => ({ st with shell_id := none }, [ExecEvent.closedShell sid])
  | _, _ => (st, [])

/-! ### Chunked uploader (`Connection.put_file`) -/

/-- One remote chunk write: the script substitutes the escaped target path,
the offset, the base64 of `data`, and the final total size into the template
(the base64 text itself is produced downstream; we record the raw chunk). -/
structure ChunkCmd where
  path : String
  offset : Nat
  data : List Char
  total : Nat
  deriving DecidableEq, Repr

inductive PutResult
  | ok
  | fileNotFound (path : String)
  | transferError (path : String)
  deriving DecidableEq, Repr

/-- `out_data.lower().startswith(pat)` with `pat` already lower-case. -/
def lcStarts (data : List Char) (pat : String) : Bool :=
  pat.toList.isPrefixOf (data.map Char.toLower)

/-- `s.lower().endswith(suf)` with `suf` already lower-case. -/
def lcEnds (s : String) (suf : String) : Bool :=
  suf.toList.isSuffixOf (s.toList.map Char.toLower)

/-- `xrange(0, stop, step)`: empty for a non-positive step (a negative step
with `stop > 0` yields an empty sequence in Python; a zero step would raise,
which never happens for the positive buffer sizes used). -/
def pyXrange0 (stop : Nat) (step : ℤ) : List Nat :=
  if 0 < step then (List.range ((stop + step.toNat - 1) / step.toNat)).map (· * step.toNat)
  else []

/-- The first-chunk check of lines 206-208: on offset 0, if the chunk starts
with the shebang marker and the path lacks the extension, append `.ps1`. -/
def stepPath (path : String) (offset : Nat) (out_data : List Char) : String :=
  if (offset == 0) && lcStarts out_data "#!powershell" && !lcEnds path ".ps1" then
    path ++ ".ps1"
  else path

/-- The `for offset in xrange(0, in_size, buffer_size)` loop of `put_file`:
sequential reads of `buffer_size` bytes, the first-chunk shebang check that
may append `.ps1` to the target path, one remote script per chunk, abort on a
non-zero status or an exception from the execution. -/
def putLoop (esc : String → String) (remote : ChunkCmd → Except String CmdOutput)
    (content : List Char) (in_size : Nat) (bsize : ℤ) :
    String → List Nat → PutResult × List ChunkCmd
  | _, [] => (PutResult.ok, [])
  | path, offset :: rest =>
    let out_data := (content.drop offset).take bsize.toNat
    let path' := stepPath path offset out_data
    let cmd : ChunkCmd := { path := esc path', offset := offset, data := out_data, total := in_size }
    match remote cmd with
    | Except.error _ => (PutResult.transferError path', [cmd])
    | Except.ok result =>
      if result.status_code ≠ 0 then (PutResult.transferError path', [cmd])
      else
        let r := putLoop esc remote content in_size bsize path' rest
        (r.1, cmd :: r.2)

/-- `Connection.put_file`: existence check first (`AnsibleFileNotFound`),
then size, measured overhead (a parameter, see `buffer_size`), and the chunk
loop.  `localFile = none` models a missing local path. -/
def put_file (esc : String → String) (overheadLen : Nat)
    (remote : ChunkCmd → Except String CmdOutput)
    (localFile : Option (List Char)) (in_path out_path : String) :
    PutResult × List ChunkCmd :=
  match localFile with
  | none => (PutResult.fileNotFound in_path, [])
  | some content =>
    let in_size := content.length
    let bsize := buffer_size overheadLen
    putLoop esc remote content in_size bsize out_path (pyXrange0 in_size bsize)

/-! ### Chunked downloader (`Connection.fetch_file`) -/

/-- What one remote fetch script reports, after the status check: the
directory sentinel (`std_out.strip() == '[DIR]'`) or the base64-decoded
bytes of the requested slice. -/
inductive FetchPayload
  | dir
  | bytes (data : List Char)
  deriving DecidableEq, Repr

inductive FetchOutcome
  | success
  | dirCreated
  | dirConflict
  | transferError
  | outOfFuel
  deriving DecidableEq, Repr

/-- The `while True` loop of `fetch_file`, fuel-indexed (the real loop is
unbounded; every claim below is about steps that have fuel).  `orc offset`
gives the remote execution outcome for the script built at that offset;
`outIsDir` is `os.path.isdir(out_path)`; `opened` tracks `out_file`.
The trace records each chunk written as `(offset, data)`. -/
def fetch_loop (orc : Nat → Except String (Int × FetchPayload)) (outIsDir : Bool) :
    Nat → Nat → Bool → FetchOutcome × List (Nat × List Char)
  | 0, _, _ => (FetchOutcome.outOfFuel, [])
  | fuel + 1, offset, opened =>
    match orc offset with
    | Except.error _ => (FetchOutcome.transferError, [])
    | Except.ok (status, payload) =>
      if status ≠ 0 then (FetchOutcome.transferError, [])
      else
        match payload with
        | FetchPayload.dir => (FetchOutcome.dirCreated, [])
        | FetchPayload.bytes data =>
          if !opened && outIsDir then (FetchOutcome.dirConflict, [])
          else
            if data.length < 524288 then (FetchOutcome.success, [(offset, data)])
            else
              let r := fetch_loop orc outIsDir fuel (offset + data.length) true
              (r.1, (offset, data) :: r.2)

/-- `Connection.fetch_file`: the loop starts at offset 0 with no file open. -/
def fetch_file (orc : Nat → Except String (Int × FetchPayload)) (outIsDir : Bool)
    (fuel : Nat) : FetchOutcome × List (Nat × List Char) :=
  fetch_loop orc outIsDir fuel 0 false

/-! ### Concrete sample inputs for the witness theorems -/

def ci0 : ConnectionInfo :=
  { port := some 5985, remote_addr := "host", remote_user := "user", password := "pw" }

def probeBoom : Transport → Scheme → ProbeResult :=
  fun _ _ => ProbeResult.err "boom"

def probe401 : Transport → Scheme → ProbeResult :=
  fun _ _ => ProbeResult.err "Code 401"

def probeTimeoutMsg : Transport → Scheme → ProbeResult :=
  fun _ _ => ProbeResult.err "Operation timed out"

def probeOk : Transport → Scheme → ProbeResult :=
  fun _ _ => ProbeResult.ok

def escId : String → String := fun s => s

def out0 : CmdOutput := { status_code := 0, std_out := "", std_err := "" }

def remoteOk : ChunkCmd → Except String CmdOutput := fun _ => Except.ok out0

def proto0 : Protocol := mkProtocol ci0 Transport.plaintext Scheme.http

def orcOk : ExecOracle :=
  { open_shell := Except.ok "sh1", run_command := Except.ok "cmd1",
    get_output := Except.ok out0 }

def orcFailOut : ExecOracle :=
  { open_shell := Except.ok "sh1", run_command := Except.ok "cmd1",
    get_output := Except.error "boom" }

def st0 : SessionState := { protocol := some proto0, shell_id := some "sh0" }

def content0 : List Char := "#!powershell\nWrite-Host hi".toList

def fo0 : Nat → Except String (Int × FetchPayload) :=
  fun _ => Except.ok (0, FetchPayload.bytes ['a'])

-- sanity checks on the arithmetic embedding: 970 is the nested-floor
-- discrepancy, 981 the one input where the double rounding loses a unit
-- (7209 / 2.67 lands exactly on 2700.0 and 2700.0 / 1.35 rounds just
-- below 2000), 0 and 8190 the range ends
example : buffer_size 970 = 2003 := by decide
example : specMaxChunk 970 = 2002 := by norm_num [specMaxChunk]
example : singleTrunc 970 = 2003 := by decide
example : buffer_size 981 = 1999 := by decide
example : singleTrunc 981 = 2000 := by decide
example : specMaxChunk 981 = 2000 := by norm_num [specMaxChunk]
example : buffer_size 0 = 2272 := by decide
example : buffer_size 8190 = 0 := by decide
example : d267 = (6012305502539612, -51) := by decide
example : d135 = (6079859496950170, -52) := by decide

/-! ### Negotiation-loop lemmas -/

/-- Option fallback used to describe the `exc` bookkeeping. -/
def orO (a b : Option String) : Option String :=
  match a with
  | some x => some x
  | none => b

/-- Once `exc` is set, exhausting the list raises it: the loop can no longer
fall through to the implicit `None` return. -/
theorem connectLoop_some_ne_noResult (hk : Bool) (ci : ConnectionInfo)
    (probe : Transport → Scheme → ProbeResult) :
    ∀ (l : List (Transport × Scheme)) (e : String),
      (connectLoop hk ci probe l (some e)).1 ≠ NegOutcome.noResult := by
  intro l
  induction l with
  | nil => intro e; simp [connectLoop]
  | cons a rest ih =>
    intro e
    cases hsk : skipA hk ci a with
    | true => simpa [connectLoop, hsk] using ih e
    | false =>
      cases hp : probe a.1 a.2 with
      | ok => simp [connectLoop, hsk, hp]
      | err msg =>
        cases ht : matchesTimeout msg with
        | true => simp [connectLoop, hsk, hp, ht]
        | false =>
          cases hc : findCode msg with
          | none => simpa [connectLoop, hsk, hp, ht, hc] using ih msg
          | some code =>
            by_cases h401 : code = 401
            · simp [connectLoop, hsk, hp, ht, hc, h401]
            · by_cases h411 : code = 411
              · simp [connectLoop, hsk, hp, ht, hc, h401, h411]
              · simpa [connectLoop, hsk, hp, ht, hc, h401, h411] using ih msg

/-- If some attempt in the list is not skipped, the loop never falls through
to the implicit `None` return, whatever `exc` currently is. -/
theorem connectLoop_exists_ne_noResult (hk : Bool) (ci : ConnectionInfo)
    (probe : Transport → Scheme → ProbeResult) :
    ∀ (l : List (Transport × Scheme)) (exc : Option String),
      (∃ a ∈ l, skipA hk ci a = false) →
      (connectLoop hk ci probe l exc).1 ≠ NegOutcome.noResult := by
  intro l
  induction l with
  | nil => intro exc h; simp at h
  | cons a rest ih =>
    intro exc h
    cases hsk : skipA hk ci a with
    | true =>
      obtain ⟨x, hx, hxs⟩ := h
      rcases List.mem_cons.mp hx with rfl | hx'
      · rw [hsk] at hxs; cases hxs
      · simpa [connectLoop, hsk] using ih exc ⟨x, hx', hxs⟩
    | false =>
      cases hp : probe a.1 a.2 with
      | ok => simp [connectLoop, hsk, hp]
      | err msg =>
        cases ht : matchesTimeout msg with
        | true => simp [connectLoop, hsk, hp, ht]
        | false =>
          cases hc : findCode msg with
          | none =>
            simpa [connectLoop, hsk, hp, ht, hc] using
              connectLoop_some_ne_noResult hk ci probe rest msg
          | some code =>
            by_cases h401 : code = 401
            · simp [connectLoop, hsk, hp, ht, hc, h401]
            · by_cases h411 : code = 411
              · simp [connectLoop, hsk, hp, ht, hc, h401, h411]
              · simpa [connectLoop, hsk, hp, ht, hc, h401, h411] using
                  connectLoop_some_ne_noResult hk ci probe rest msg

/-- Chaining step for the last-observed-error bookkeeping. -/
theorem orO_getLast_cons (msg : String) (L : List String) (exc : Option String) (e : String)
    (h : orO L.getLast? (some msg) = some e) :
    orO (msg :: L).getLast? exc = some e := by
  cases L with
  | nil =>
    simp [orO] at h
    simp [orO, h]
  | cons x xs =>
    rw [List.getLast?_cons_cons]
    cases hL : (x :: xs).getLast? with
    | none => exact absurd (List.getLast?_eq_none_iff.mp hL) (by simp)
    | some v =>
      rw [hL] at h
      simpa [orO] using h

/-- When the loop exits by raising `exc`, the raised message is the last
continue-classified error observed (falling back to the incoming `exc`). -/
theorem connectLoop_lastErr_observed (hk : Bool) (ci : ConnectionInfo)
    (probe : Transport → Scheme → ProbeResult) :
    ∀ (l : List (Transport × Scheme)) (exc : Option String) (e : String),
      (connectLoop hk ci probe l exc).1 = NegOutcome.lastErr e →
      orO (contErrs (connectLoop hk ci probe l exc).2).getLast? exc = some e := by
  intro l
  induction l with
  | nil =>
    intro exc e h
    cases exc with
    | none => simp [connectLoop] at h
    | some e0 =>
      simp [connectLoop] at h
      simp [connectLoop, contErrs, orO, h]
  | cons a rest ih =>
    intro exc e h
    cases hsk : skipA hk ci a with
    | true =>
      rw [show connectLoop hk ci probe (a :: rest) exc = connectLoop hk ci probe rest exc from
        by simp [connectLoop, hsk]] at h ⊢
      exact ih exc e h
    | false =>
      cases hp : probe a.1 a.2 with
      | ok => simp [connectLoop, hsk, hp] at h
      | err msg =>
        cases ht : matchesTimeout msg with
        | true => simp [connectLoop, hsk, hp, ht] at h
        | false =>
          cases hc : findCode msg with
          | none =>
            simp only [connectLoop, hsk, hp, ht, hc, Bool.false_eq_true, if_false] at h ⊢
            have hh := ih (some msg) e h
            simpa [contErrs] using orO_getLast_cons msg _ exc e hh
          | some code =>
            by_cases h401 : code = 401
            · simp [connectLoop, hsk, hp, ht, hc, h401] at h
            · by_cases h411 : code = 411
              · simp [connectLoop, hsk, hp, ht, hc, h401, h411] at h
              · simp only [connectLoop, hsk, hp, ht, hc, h401, h411, Bool.false_eq_true,
                  if_false] at h ⊢
                have hh := ih (some msg) e h
                simpa [contErrs] using orO_getLast_cons msg _ exc e hh

/-- C2: when every transport attempt is exhausted without success, the
negotiation fails with an error rather than returning without a connection:
the outcome is never the fall-through `None` return (both attempt lists
contain plaintext entries, which are never skipped, so an observed error
always exists at exhaustion), and the raised error is the last observed
transport error. -/
theorem winrm_c2 (hk : Bool) (ci : ConnectionInfo)
    (probe : Transport → Scheme → ProbeResult) :
    (winrm_connect hk ci probe).1 ≠ NegOutcome.noResult ∧
    ∀ e, (winrm_connect hk ci probe).1 = NegOutcome.lastErr e →
      (contErrs (winrm_connect hk ci probe).2).getLast? = some e := by
  constructor
  · unfold winrm_connect
    apply connectLoop_exists_ne_noResult
    split
    · exact ⟨(Transport.plaintext, Scheme.http), by simp [transport_schemes_http],
        by simp [skipA]⟩
    · exact ⟨(Transport.plaintext, Scheme.https), by simp [transport_schemes_https],
        by simp [skipA]⟩
  · intro e he
    have hh := connectLoop_lastErr_observed hk ci probe
      (if effPort ci = 5985 then transport_schemes_http else transport_schemes_https) none e he
    unfold winrm_connect
    cases hX : (contErrs ((connectLoop hk ci probe
        (if effPort ci = 5985 then transport_schemes_http else transport_schemes_https)
        none).2)).getLast? with
    | none => rw [hX] at hh; simp [orO] at hh
    | some v => rw [hX] at hh; simpa [orO] using hh

/-- Witness for C2: a probe failing everywhere with an unclassified error
leads to exhaustion raising that last error. -/
theorem winrm_c2_witness :
    (winrm_connect false ci0 probeBoom).1 ≠ NegOutcome.noResult ∧
    (contErrs (winrm_connect false ci0 probeBoom).2).getLast? = some "boom" :=
  ⟨(winrm_c2 false ci0 probeBoom).1, (winrm_c2 false ci0 probeBoom).2 "boom" (by decide)⟩

/-- An attempt the loop passes over without exiting: it is skipped, or its
probe fails with a continue-classified error (no timeout, no 401/411 code). -/
def passes (hk : Bool) (ci : ConnectionInfo) (probe : Transport → Scheme → ProbeResult)
    (a : Transport × Scheme) : Prop :=
  skipA hk ci a = true ∨
  ∃ msg, probe a.1 a.2 = ProbeResult.err msg ∧ matchesTimeout msg = false ∧
    findCode msg ≠ some 401 ∧ findCode msg ≠ some 411

/-- A prefix of passed-over attempts does not determine the outcome: the loop
reaches the rest of the list (with some accumulated `exc`). -/
theorem connectLoop_append_pass (hk : Bool) (ci : ConnectionInfo)
    (probe : Transport → Scheme → ProbeResult) :
    ∀ (l₁ rest : List (Transport × Scheme)) (exc : Option String),
      (∀ x ∈ l₁, passes hk ci probe x) →
      ∃ exc', (connectLoop hk ci probe (l₁ ++ rest) exc).1 =
        (connectLoop hk ci probe rest exc').1 := by
  intro l₁
  induction l₁ with
  | nil => intro rest exc _; exact ⟨exc, rfl⟩
  | cons a l ih =>
    intro rest exc hall
    have ha := hall a (by simp)
    have hl : ∀ x ∈ l, passes hk ci probe x := fun x hx => hall x (by simp [hx])
    cases hsk : skipA hk ci a with
    | true =>
      obtain ⟨exc', h⟩ := ih rest exc hl
      exact ⟨exc', by simpa [connectLoop, hsk] using h⟩
    | false =>
      rcases ha with h | ⟨msg, hp, ht, h401, h411⟩
      · rw [hsk] at h; cases h
      · obtain ⟨exc', h⟩ := ih rest (some msg) hl
        refine ⟨exc', ?_⟩
        cases hc : findCode msg with
        | none => simpa [connectLoop, hsk, hp, ht, hc] using h
        | some code =>
          have hc401 : ¬ code = 401 := by rintro rfl; exact h401 hc
          have hc411 : ¬ code = 411 := by rintro rfl; exact h411 hc
          simpa [connectLoop, hsk, hp, ht, hc, hc401, hc411] using h

/-- C4: classification of a transport failure at the first reached attempt is
exhaustive and ordered — a timeout message fails the whole negotiation
immediately, then an embedded 401 fails with the authentication error, an
embedded 411 returns this attempt's connection, and any other failure
continues with the rest of the list. -/
theorem winrm_c4 (hk : Bool) (ci : ConnectionInfo)
    (probe : Transport → Scheme → ProbeResult)
    (l₁ l₂ : List (Transport × Scheme)) (a : Transport × Scheme)
    (exc : Option String) (msg : String)
    (hpass : ∀ x ∈ l₁, passes hk ci probe x)
    (hns : skipA hk ci a = false)
    (hprobe : probe a.1 a.2 = ProbeResult.err msg) :
    (matchesTimeout msg = true →
      (connectLoop hk ci probe (l₁ ++ a :: l₂) exc).1 = NegOutcome.timeoutErr) ∧
    (matchesTimeout msg = false → findCode msg = some 401 →
      (connectLoop hk ci probe (l₁ ++ a :: l₂) exc).1 = NegOutcome.authErr) ∧
    (matchesTimeout msg = false → findCode msg = some 411 →
      (connectLoop hk ci probe (l₁ ++ a :: l₂) exc).1 =
        NegOutcome.connected (mkProtocol ci a.1 a.2)) ∧
    (matchesTimeout msg = false → findCode msg ≠ some 401 → findCode msg ≠ some 411 →
      (connectLoop hk ci probe (l₁ ++ a :: l₂) exc).1 =
        (connectLoop hk ci probe l₂ (some msg)).1) := by
  obtain ⟨exc', hE⟩ := connectLoop_append_pass hk ci probe l₁ (a :: l₂) exc hpass
  refine ⟨?_, ?_, ?_, ?_⟩
  · intro ht
    rw [hE]
    simp [connectLoop, hns, hprobe, ht]
  · intro ht hc
    rw [hE]
    simp [connectLoop, hns, hprobe, ht, hc]
  · intro ht hc
    rw [hE]
    simp [connectLoop, hns, hprobe, ht, hc]
  · intro ht h401 h411
    rw [hE]
    cases hc : findCode msg with
    | none => simp [connectLoop, hns, hprobe, ht, hc]
    | some code =>
      have hc401 : ¬ code = 401 := by rintro rfl; exact h401 hc
      have hc411 : ¬ code = 411 := by rintro rfl; exact h411 hc
      simp [connectLoop, hns, hprobe, ht, hc, hc401, hc411]

/-- Witness for C4: a 401-classified message fails with the authentication
error; a timeout-classified message fails with the timeout error. -/
theorem winrm_c4_witness :
    (connectLoop false ci0 probe401 [(Transport.plaintext, Scheme.http)] none).1 =
      NegOutcome.authErr ∧
    (connectLoop false ci0 probeTimeoutMsg [(Transport.plaintext, Scheme.http)] none).1 =
      NegOutcome.timeoutErr :=
  ⟨(winrm_c4 false ci0 probe401 [] [] (Transport.plaintext, Scheme.http) none "Code 401"
      (by simp) (by decide) rfl).2.1 (by decide) (by decide),
   (winrm_c4 false ci0 probeTimeoutMsg [] [] (Transport.plaintext, Scheme.http) none
      "Operation timed out" (by simp) (by decide) rfl).1 (by decide)⟩

/-- Kerberos attempts are never probed when kerberos support is missing or
the principal has no realm separator. -/
theorem connectLoop_no_kerberos_probe (hk : Bool) (ci : ConnectionInfo)
    (probe : Transport → Scheme → ProbeResult)
    (hcond : hk = false ∨ hasAt ci.remote_user = false) :
    ∀ (l : List (Transport × Scheme)) (exc : Option String) (t : Transport) (s : Scheme),
      NegEvent.probed t s ∈ (connectLoop hk ci probe l exc).2 →
      t = Transport.plaintext := by
  intro l
  induction l with
  | nil => intro exc t s h; cases exc <;> simp [connectLoop] at h
  | cons a rest ih =>
    intro exc t s h
    cases hsk : skipA hk ci a with
    | true =>
      rw [show connectLoop hk ci probe (a :: rest) exc = connectLoop hk ci probe rest exc from
        by simp [connectLoop, hsk]] at h
      exact ih exc t s h
    | false =>
      have hker : a.1 = Transport.plaintext := by
        cases ha1 : a.1 with
        | plaintext => rfl
        | kerberos =>
          have : skipA hk ci a = true := by
            rcases hcond with hcnd | hcnd <;> simp [skipA, ha1, hcnd]
          rw [hsk] at this; cases this
      cases hp : probe a.1 a.2 with
      | ok =>
        simp [connectLoop, hsk, hp] at h
        rw [h.1, hker]
      | err msg =>
        cases ht : matchesTimeout msg with
        | true =>
          simp [connectLoop, hsk, hp, ht] at h
          rw [h.1, hker]
        | false =>
          cases hc : findCode msg with
          | none =>
            simp [connectLoop, hsk, hp, ht, hc] at h
            rcases h with ⟨rfl, _⟩ | h
            · exact hker
            · exact ih (some msg) t s h
          | some code =>
            by_cases h401 : code = 401
            · simp [connectLoop, hsk, hp, ht, hc, h401] at h
              rw [h.1, hker]
            · by_cases h411 : code = 411
              · simp [connectLoop, hsk, hp, ht, hc, h401, h411] at h
                rw [h.1, hker]
              · simp [connectLoop, hsk, hp, ht, hc, h401, h411] at h
                rcases h with ⟨rfl, _⟩ | h
                · exact hker
                · exact ih (some msg) t s h

/-- C5: negotiation iterates the attempt list in order, never probes a
kerberos attempt when support is unavailable or the principal has no realm
separator, and returns the connection of the first reached attempt whose
probe succeeds or is 411-classified. -/
theorem winrm_c5 (hk : Bool) (ci : ConnectionInfo)
    (probe : Transport → Scheme → ProbeResult) :
    ((hk = false ∨ hasAt ci.remote_user = false) →
      ∀ t s, NegEvent.probed t s ∈ (winrm_connect hk ci probe).2 →
        t = Transport.plaintext) ∧
    (∀ (l₁ l₂ : List (Transport × Scheme)) (a : Transport × Scheme) (exc : Option String),
      (∀ x ∈ l₁, passes hk ci probe x) →
      skipA hk ci a = false →
      (probe a.1 a.2 = ProbeResult.ok ∨
        ∃ msg, probe a.1 a.2 = ProbeResult.err msg ∧ matchesTimeout msg = false ∧
          findCode msg = some 411) →
      (connectLoop hk ci probe (l₁ ++ a :: l₂) exc).1 =
        NegOutcome.connected (mkProtocol ci a.1 a.2)) := by
  constructor
  · intro hcond t s h
    unfold winrm_connect at h
    exact connectLoop_no_kerberos_probe hk ci probe hcond _ none t s h
  · intro l₁ l₂ a exc hpass hns hsucc
    obtain ⟨exc', hE⟩ := connectLoop_append_pass hk ci probe l₁ (a :: l₂) exc hpass
    rw [hE]
    rcases hsucc with hp | ⟨msg, hp, ht, hc⟩
    · simp [connectLoop, hns, hp]
    · simp [connectLoop, hns, hp, ht, hc]

/-- Witness for C5: with kerberos unavailable, the kerberos attempt is
skipped and the first plaintext attempt that succeeds is returned. -/
theorem winrm_c5_witness :
    Transport.plaintext = Transport.plaintext ∧
    (connectLoop false ci0 probeOk
        [(Transport.kerberos, Scheme.http), (Transport.plaintext, Scheme.http)] none).1 =
      NegOutcome.connected (mkProtocol ci0 Transport.plaintext Scheme.http) :=
  ⟨(winrm_c5 false ci0 probeOk).1 (Or.inl rfl) Transport.plaintext Scheme.http (by decide),
   (winrm_c5 false ci0 probeOk).2 [(Transport.kerberos, Scheme.http)] []
      (Transport.plaintext, Scheme.http) none
      (by
        intro x hx
        simp at hx
        subst hx
        left
        decide)
      (by decide) (Or.inl rfl)⟩

/-! ### Session lemmas -/

/-- In the command phase, a run command is always followed by its release. -/
theorem runPhase_clean (orc : ExecOracle) (sid : String) (st : SessionState) (cid : String)
    (h : ExecEvent.ranCommand cid ∈ (runPhase orc sid st).2.2) :
    releasesCommand (runPhase orc sid st).2.2 cid = true := by
  revert h
  unfold runPhase
  cases hr : orc.run_command with
  | error e => intro h; simp at h
  | ok c =>
    cases hg : orc.get_output with
    | error e =>
      intro h
      simp at h
      simp [releasesCommand, h]
    | ok out =>
      intro h
      simp at h
      simp [releasesCommand, h]

/-- Same, lifted over the lazy shell opening. -/
theorem execWithProto_clean (orc : ExecOracle) (st : SessionState) (cid : String)
    (h : ExecEvent.ranCommand cid ∈ (execWithProto orc st).2.2) :
    releasesCommand (execWithProto orc st).2.2 cid = true := by
  revert h
  unfold execWithProto
  cases hsh : st.shell_id with
  | some sid => intro h; exact runPhase_clean orc sid st cid h
  | none =>
    cases hos : orc.open_shell with
    | error e => intro h; simp at h
    | ok sid =>
      intro h
      dsimp only at h ⊢
      rw [List.mem_cons] at h
      rcases h with h | h
      · cases h
      · have h2 := runPhase_clean orc sid { st with shell_id := some sid } cid h
        simp only [releasesCommand, List.any_cons] at h2 ⊢
        simp [h2]

/-- C6: every command handle opened during an execution is released before
the call returns or propagates its error — whether output retrieval
succeeds, reports a remote fault, or throws a transport error, the trace
that contains the `run_command` event also contains the matching
`cleanup_command` event. -/
theorem winrm_c6 (hk : Bool) (ci : ConnectionInfo)
    (probe : Transport → Scheme → ProbeResult) (orc : ExecOracle)
    (st : SessionState) (command : String) (args : List String) (cid : String)
    (h : ExecEvent.ranCommand cid ∈ (winrm_exec hk ci probe orc st command args).2.2) :
    releasesCommand (winrm_exec hk ci probe orc st command args).2.2 cid = true := by
  revert h
  unfold winrm_exec
  cases hpr : st.protocol with
  | some p => intro h; exact execWithProto_clean orc st cid h
  | none =>
    cases hcn : (winrm_connect hk ci probe).1 with
    | connected p => intro h; exact execWithProto_clean orc _ cid h
    | timeoutErr => intro h; simp at h
    | authErr => intro h; simp at h
    | lastErr e => intro h; simp at h
    | noResult => intro h; simp at h

/-- Witness for C6: even when `get_command_output` throws, the opened
command handle is released. -/
theorem winrm_c6_witness :
    releasesCommand (winrm_exec false ci0 probeBoom orcFailOut st0 "c" []).2.2 "cmd1" = true :=
  winrm_c6 false ci0 probeBoom orcFailOut st0 "c" [] "cmd1" (by decide)

/-- C7: `close` releases and clears the shell handle exactly when both a
connection handle and a shell handle exist, is a no-op otherwise, always
leaves the connection handle unchanged, and a subsequent execution on the
closed session opens a fresh shell handle and succeeds. -/
theorem winrm_c7 (st : SessionState) :
    (∀ p sid, st.protocol = some p → st.shell_id = some sid →
      connection_close st =
        ({ protocol := some p, shell_id := none }, [ExecEvent.closedShell sid])) ∧
    (st.protocol = none ∨ st.shell_id = none → connection_close st = (st, [])) ∧
    ((connection_close st).1.protocol = st.protocol) ∧
    (∀ (hk : Bool) (ci : ConnectionInfo) (probe : Transport → Scheme → ProbeResult)
        (orc : ExecOracle) (command : String) (args : List String)
        (p : Protocol) (sid' cid : String) (out : CmdOutput),
      st.protocol = some p →
      orc.open_shell = Except.ok sid' →
      orc.run_command = Except.ok cid →
      orc.get_output = Except.ok out →
      winrm_exec hk ci probe orc (connection_close st).1 command args =
        (Except.ok out, { protocol := some p, shell_id := some sid' },
         [ExecEvent.openedShell sid', ExecEvent.ranCommand cid,
          ExecEvent.cleanedCommand sid' cid])) := by
  obtain ⟨pr, sh⟩ := st
  refine ⟨?_, ?_, ?_, ?_⟩
  · intro p sid hp hs
    simp only at hp hs
    subst hp; subst hs
    simp [connection_close]
  · intro h
    rcases h with h | h <;> simp only at h <;> subst h
    · simp [connection_close]
    · cases pr <;> simp [connection_close]
  · cases pr <;> cases sh <;> simp [connection_close]
  · intro hk ci probe orc command args p sid' cid out hp hos hrun hget
    simp only at hp
    subst hp
    have hcl : (connection_close ⟨some p, sh⟩).1 = ⟨some p, none⟩ := by
      cases sh <;> simp [connection_close]
    rw [hcl]
    simp [winrm_exec, execWithProto, runPhase, hos, hrun, hget]

/-- Witness for C7: closing a live session then executing again succeeds
with a freshly opened shell handle. -/
theorem winrm_c7_witness :
    connection_close st0 =
      ({ protocol := some proto0, shell_id := none }, [ExecEvent.closedShell "sh0"]) ∧
    winrm_exec false ci0 probeBoom orcOk (connection_close st0).1 "c" [] =
      (Except.ok out0, { protocol := some proto0, shell_id := some "sh1" },
       [ExecEvent.openedShell "sh1", ExecEvent.ranCommand "cmd1",
        ExecEvent.cleanedCommand "sh1" "cmd1"]) :=
  ⟨(winrm_c7 st0).1 proto0 "sh0" rfl rfl,
   (winrm_c7 st0).2.2.2 false ci0 probeBoom orcOk "c" [] proto0 "sh1" "cmd1" out0
     rfl rfl rfl rfl⟩

/-! ### Downloader -/

/-- C8: after decoding a data chunk, the download stops successfully when the
decoded length is strictly below the fixed chunk size 524288, and otherwise
advances the offset by exactly the decoded length and repeats — no extra
end-of-file round trip is issued after a short chunk. -/
theorem winrm_c8 (orc : Nat → Except String (Int × FetchPayload)) (outIsDir : Bool)
    (fuel offset : Nat) (opened : Bool) (d : List Char)
    (hok : orc offset = Except.ok (0, FetchPayload.bytes d))
    (hnc : opened = true ∨ outIsDir = false) :
    (d.length < 524288 →
      fetch_loop orc outIsDir (fuel + 1) offset opened =
        (FetchOutcome.success, [(offset, d)])) ∧
    (524288 ≤ d.length →
      fetch_loop orc outIsDir (fuel + 1) offset opened =
        ((fetch_loop orc outIsDir fuel (offset + d.length) true).1,
         (offset, d) :: (fetch_loop orc outIsDir fuel (offset + d.length) true).2)) := by
  have hoc : (!opened && outIsDir) = false := by
    rcases hnc with h | h <;> simp [h]
  constructor <;> intro hlen
  · simp [fetch_loop, hok, hoc, hlen]
  · have hlt : ¬ d.length < 524288 := by omega
    simp [fetch_loop, hok, hoc, hlt]

/-- Witness for C8: a single short chunk terminates the transfer. -/
theorem winrm_c8_witness :
    fetch_loop fo0 false 1 0 false = (FetchOutcome.success, [(0, ['a'])]) :=
  (winrm_c8 fo0 false 0 0 false ['a'] rfl (Or.inr rfl)).1 (by decide)

/-! ### Uploader -/

/-- Offsets after the first are nonzero, so the shebang check never fires
again and the loop's path state is constant. -/
theorem putLoop_path_fixed (esc : String → String)
    (remote : ChunkCmd → Except String CmdOutput)
    (content : List Char) (in_size : Nat) (bsize : ℤ) :
    ∀ (offsets : List Nat) (path : String), (∀ o ∈ offsets, o ≠ 0) →
      ∀ cmd ∈ (putLoop esc remote content in_size bsize path offsets).2,
        cmd.path = esc path := by
  intro offsets
  induction offsets with
  | nil => intro path _ cmd hc; simp [putLoop] at hc
  | cons o rest ih =>
    intro path hall cmd hc
    have ho : o ≠ 0 := hall o (by simp)
    have hrest : ∀ x ∈ rest, x ≠ 0 := fun x hx => hall x (by simp [hx])
    have hsp : stepPath path o ((content.drop o).take bsize.toNat) = path := by
      simp [stepPath, ho]
    revert hc
    simp only [putLoop]
    rw [hsp]
    cases hrem : remote (ChunkCmd.mk (esc path) o ((content.drop o).take bsize.toNat) in_size) with
    | error e => intro hc; simp at hc; simp [hc]
    | ok result =>
      dsimp only
      by_cases hst : result.status_code ≠ 0
      · rw [if_pos hst]
        intro hc; simp at hc; simp [hc]
      · rw [if_neg hst]
        intro hc
        rcases List.mem_cons.mp hc with rfl | hc'
        · rfl
        · exact ih path hrest cmd hc'

/-- `xrange(0, stop, step)` for positive `stop` and `step` starts at 0 and
continues with nonzero offsets. -/
theorem pyXrange0_pos_cons (stop : Nat) (step : ℤ)
    (hstop : 0 < stop) (hstep : 0 < step) :
    ∃ rest, pyXrange0 stop step = 0 :: rest ∧ ∀ o ∈ rest, o ≠ 0 := by
  have hb : 0 < step.toNat := by omega
  unfold pyXrange0
  rw [if_pos hstep]
  have h1 : 1 ≤ (stop + step.toNat - 1) / step.toNat :=
    (Nat.one_le_div_iff hb).mpr (by omega)
  have hcount : (stop + step.toNat - 1) / step.toNat =
      ((stop + step.toNat - 1) / step.toNat - 1) + 1 := by omega
  rw [hcount, List.range_succ_eq_map]
  refine ⟨((List.range ((stop + step.toNat - 1) / step.toNat - 1)).map Nat.succ).map
      (fun x => x * step.toNat), by simp, ?_⟩
  intro o ho
  simp only [List.map_map] at ho
  rw [List.mem_map] at ho
  obtain ⟨i, _, hi⟩ := ho
  intro h0
  rw [h0] at hi
  simp only [Function.comp_apply] at hi
  rcases Nat.mul_eq_zero.mp hi with h' | h' <;> omega

/-- One loop step with a known path-state transition: every issued chunk
carries the (escaped) new path. -/
theorem putLoop_cons_path (esc : String → String)
    (remote : ChunkCmd → Except String CmdOutput)
    (content : List Char) (in_size : Nat) (bsize : ℤ)
    (path p' : String) (o : Nat) (rest : List Nat)
    (hp' : stepPath path o ((content.drop o).take bsize.toNat) = p')
    (hrest : ∀ x ∈ rest, x ≠ 0) :
    ∀ cmd ∈ (putLoop esc remote content in_size bsize path (o :: rest)).2,
      cmd.path = esc p' := by
  intro cmd hc
  revert hc
  simp only [putLoop]
  rw [hp']
  cases hrem : remote (ChunkCmd.mk (esc p') o ((content.drop o).take bsize.toNat) in_size) with
  | error e => intro hc; simp at hc; simp [hc]
  | ok result =>
    dsimp only
    by_cases hst : result.status_code ≠ 0
    · rw [if_pos hst]
      intro hc; simp at hc; simp [hc]
    · rw [if_neg hst]
      intro hc
      rcases List.mem_cons.mp hc with rfl | hc'
      · rfl
      · exact putLoop_path_fixed esc remote content in_size bsize rest p' hrest cmd hc'

/-- C9: when the first chunk starts with the shebang marker and the remote
path lacks the `.ps1` extension, the extension is appended exactly once and
every issued chunk command uses the extended path; when the path already
carries the extension, every issued chunk command uses the unchanged path. -/
theorem winrm_c9 (esc : String → String) (remote : ChunkCmd → Except String CmdOutput)
    (overheadLen : Nat) (content : List Char) (in_path out_path : String)
    (hb : 0 < buffer_size overheadLen) (hc : content ≠ []) :
    (lcStarts (content.take (buffer_size overheadLen).toNat) "#!powershell" = true →
      lcEnds out_path ".ps1" = false →
      ∀ cmd ∈ (put_file esc overheadLen remote (some content) in_path out_path).2,
        cmd.path = esc (out_path ++ ".ps1")) ∧
    (lcEnds out_path ".ps1" = true →
      ∀ cmd ∈ (put_file esc overheadLen remote (some content) in_path out_path).2,
        cmd.path = esc out_path) := by
  have hlen : 0 < content.length := List.length_pos.mpr hc
  obtain ⟨rest, hxr, hrest⟩ :=
    pyXrange0_pos_cons content.length (buffer_size overheadLen) hlen hb
  constructor
  · intro hsb hne cmd hcmd
    simp only [put_file] at hcmd
    rw [hxr] at hcmd
    refine putLoop_cons_path esc remote content content.length (buffer_size overheadLen)
      out_path (out_path ++ ".ps1") 0 rest ?_ hrest cmd hcmd
    simp [stepPath, List.drop_zero, hsb, hne]
  · intro hend cmd hcmd
    simp only [put_file] at hcmd
    rw [hxr] at hcmd
    refine putLoop_cons_path esc remote content content.length (buffer_size overheadLen)
      out_path out_path 0 rest ?_ hrest cmd hcmd
    simp [stepPath, hend]

/-- Witness for C9: uploading a shebang-marked file to a path without the
extension issues every chunk against the `.ps1`-extended path. -/
theorem winrm_c9_witness :
    ((put_file escId 970 remoteOk (some content0) "in" "script").2.all
      fun c => c.path == "script.ps1") = true := by
  have hbv : buffer_size 970 = 2003 := by decide
  have h := (winrm_c9 escId remoteOk 970 content0 "in" "script"
      (by rw [hbv]; norm_num) (by decide)).1
    (by rw [hbv]; decide) (by decide)
  refine List.all_eq_true.mpr fun c hcm => ?_
  have hcp := h c hcm
  have : escId ("script" ++ ".ps1") = "script.ps1" := rfl
  rw [this] at hcp
  simp [hcp]

/-- The empty-file upload issues no chunk commands: `xrange(0, 0, step)` is
empty for every step. -/
theorem put_file_empty (esc : String → String) (overheadLen : Nat)
    (remote : ChunkCmd → Except String CmdOutput) (in_path out_path : String) :
    put_file esc overheadLen remote (some []) in_path out_path = (PutResult.ok, []) := by
  have h : pyXrange0 (List.length ([] : List Char)) (buffer_size overheadLen) = [] := by
    unfold pyXrange0
    split
    · rename_i hstep
      have hb : 0 < (buffer_size overheadLen).toNat := by omega
      have h0 : (List.length ([] : List Char) + (buffer_size overheadLen).toNat - 1) /
          (buffer_size overheadLen).toNat = 0 := Nat.div_eq_of_lt (by simp; omega)
      rw [h0]
      rfl
    · rfl
  simp only [put_file]
  rw [h]
  simp [putLoop]

/-- C1 (amended): an empty local file issues no remote chunk commands at all
— the offset loop is empty — so the upload completes without touching the
remote destination (in particular, nothing truncates pre-existing remote
content). -/
theorem winrm_c1 (esc : String → String) (overheadLen : Nat)
    (remote : ChunkCmd → Except String CmdOutput) (in_path out_path : String) :
    put_file esc overheadLen remote (some []) in_path out_path = (PutResult.ok, []) :=
  put_file_empty esc overheadLen remote in_path out_path

/-- Counterexample for C1 as stated: a concrete zero-length upload completes
with an empty list of issued remote chunk commands, so no command carrying
the size/truncate effect is ever sent. -/
theorem winrm_c1_counterexample :
    (put_file escId 970 remoteOk (some []) "src" "dest").1 = PutResult.ok ∧
    (put_file escId 970 remoteOk (some []) "src" "dest").2 = [] :=
  ⟨by rw [put_file_empty], by rw [put_file_empty]⟩

/-- C10: a missing local source fails with the file-not-found error before
any remote chunk command is issued: the remote trace is empty. -/
theorem winrm_c10 (esc : String → String) (overheadLen : Nat)
    (remote : ChunkCmd → Except String CmdOutput) (in_path out_path : String) :
    put_file esc overheadLen remote none in_path out_path =
      (PutResult.fileNotFound in_path, []) := rfl

/-! ### Chunk-size formula -/

/-- Soundness of the balanced range check: if `checkAux` accepts the range
`[lo, lo + w)`, then `chunkAgrees` holds at every point of it. -/
theorem checkAux_sound :
    ∀ (fuel lo w : Nat), checkAux fuel lo w = true →
      ∀ j, lo ≤ j → j < lo + w → chunkAgrees j = true := by
  intro fuel
  induction fuel with
  | zero =>
    intro lo w h j h1 h2
    simp only [checkAux, Bool.or_eq_true, Bool.and_eq_true, beq_iff_eq] at h
    rcases h with h | ⟨hw, ha⟩
    · omega
    · have hj : j = lo := by omega
      rwa [hj]
  | succ fuel ih =>
    intro lo w h j h1 h2
    simp only [checkAux] at h
    by_cases hw : w ≤ 1
    · rw [if_pos hw] at h
      simp only [Bool.or_eq_true, Bool.and_eq_true, beq_iff_eq] at h
      rcases h with h | ⟨hw1, ha⟩
      · omega
      · have hj : j = lo := by omega
        rwa [hj]
    · rw [if_neg hw] at h
      simp only [Bool.and_eq_true] at h
      obtain ⟨hL, hR⟩ := h
      by_cases hj : j < lo + w / 2
      · exact ih lo (w / 2) hL j h1 hj
      · exact ih (lo + w / 2) (w - w / 2) hR j (by omega) (by omega)

set_option maxRecDepth 10000 in
set_option maxHeartbeats 40000000 in
/-- The float pipeline matches its exact characterization on `[0, 2048)`. -/
theorem chunkCheck0 : checkAux 12 0 2048 = true := by decide

set_option maxRecDepth 10000 in
set_option maxHeartbeats 40000000 in
/-- The float pipeline matches its exact characterization on `[2048, 4096)`. -/
theorem chunkCheck1 : checkAux 12 2048 2048 = true := by decide

set_option maxRecDepth 10000 in
set_option maxHeartbeats 40000000 in
/-- The float pipeline matches its exact characterization on `[4096, 6144)`. -/
theorem chunkCheck2 : checkAux 12 4096 2048 = true := by decide

set_option maxRecDepth 10000 in
set_option maxHeartbeats 40000000 in
/-- The float pipeline matches its exact characterization on `[6144, 8191)`. -/
theorem chunkCheck3 : checkAux 12 6144 2047 = true := by decide

/-- C3 (amended): the inner quotient is not floored before the second
division — the uploader computes `int(((8190 - L) / 2.67) / 1.35)` in IEEE
binary64 doubles with a single final truncation.  For every `L ≤ 8190` the
result equals the exact single-truncation value
`⌊(8190 - L) * 2000 / 7209⌋`, except at `L = 981`, where the float chain
rounds `2700.0 / 1.35` to just below `2000` and yields `1999` instead of
`2000` — and in particular it differs from the nested-floor formula of the
spec (at `L = 970` the code gives 2003 and the nested floor 2002, at
`L = 981` the code gives 1999 and the nested floor 2000). -/
theorem winrm_c3 (overheadLen : Nat) (h : overheadLen ≤ 8190) :
    buffer_size overheadLen =
      if overheadLen = 981 then 1999 else singleTrunc overheadLen := by
  have hj : chunkAgrees overheadLen = true := by
    by_cases h0 : overheadLen < 2048
    · exact checkAux_sound 12 0 2048 chunkCheck0 overheadLen (Nat.zero_le _) (by omega)
    · by_cases h1 : overheadLen < 4096
      · exact checkAux_sound 12 2048 2048 chunkCheck1 overheadLen (by omega) (by omega)
      · by_cases h2 : overheadLen < 6144
        · exact checkAux_sound 12 4096 2048 chunkCheck2 overheadLen (by omega) (by omega)
        · exact checkAux_sound 12 6144 2047 chunkCheck3 overheadLen (by omega) (by omega)
  simpa only [chunkAgrees, beq_iff_eq] using hj

/-- Counterexample for C3 as stated: at measured overhead length 970 the code
computes 2003 while the nested-floor formula of the spec gives 2002 (and at
981 the code computes 1999 while the nested floor gives 2000). -/
theorem winrm_c3_counterexample :
    buffer_size 970 = 2003 ∧ specMaxChunk 970 = 2002 ∧
    buffer_size 970 ≠ specMaxChunk 970 ∧
    buffer_size 981 = 1999 ∧ specMaxChunk 981 = 2000 ∧
    buffer_size 981 ≠ specMaxChunk 981 := by
  have h1 : buffer_size 970 = 2003 := by decide
  have h2 : specMaxChunk 970 = 2002 := by norm_num [specMaxChunk]
  have h3 : buffer_size 981 = 1999 := by decide
  have h4 : specMaxChunk 981 = 2000 := by norm_num [specMaxChunk]
  exact ⟨h1, h2, by rw [h1, h2]; decide, h3, h4, by rw [h3, h4]; decide⟩

/-- Witness for C3 (amended) at overhead length 970, where the float chain
agrees with the exact single truncation. -/
theorem winrm_c3_witness :
    buffer_size 970 = if (970 : Nat) = 981 then 1999 else singleTrunc 970 :=
  winrm_c3 970 (by norm_num)

end WinRM
